import Mathlib

/-
Verification development for the btp4ai-wire publisher (app.py, publish_card.py).

The Python sources are shallowly embedded below:
  * Python strings are Lean String values; Python string comparison is
    code-point lexicographic order, embedded as lexLtB / lexLeB on the
    underlying character lists.
  * Python f-string decimal formatting is embedded by decRepr (no padding)
    and pyPad (zero padding to a minimum width, the semantics of 02d).
  * datetime.date and datetime.datetime arithmetic is embedded through the
    proleptic Gregorian calendar exactly as in CPython Lib/datetime.py:
    _days_before_year, _days_in_month, _days_before_month, _ymd2ord,
    _isoweek1monday and isocalendar.  Aware datetimes are records of the
    civil fields plus a fixed UTC offset in seconds; CPython compares two
    aware datetimes by comparing the field tuples when the offsets agree and
    by comparing the absolute instants otherwise, and dtLeB mirrors that.
  * The remote GitHub content store is a path-keyed association list of
    path/content pairs; every PUT and DELETE issued by the code is recorded
    in an operation trace so that claims about side effects are claims
    about the trace.
  * hashlib.sha1, base64.b64encode, the card template renderer and the
    Perplexity HTTP call are external collaborators of the repository code
    (hashlib / base64 / card_template.json / the Perplexity service); they
    enter the model as explicit function or outcome parameters, and the
    theorems below quantify over them.
-/

set_option linter.unusedVariables false

namespace Wire

/-! ## Python string order (code-point lexicographic) -/

/-- Strict lexicographic order on character lists, as Python compares
strings (by unicode code point). -/
def lexLtB : List Char → List Char → Bool
  | [], [] => false
  | [], _ :: _ => true
  | _ :: _, [] => false
  | a :: as, b :: bs => if a < b then true else if a = b then lexLtB as bs else false

/-- Non-strict lexicographic order on character lists. -/
def lexLeB : List Char → List Char → Bool
  | [], _ => true
  | _ :: _, [] => false
  | a :: as, b :: bs => if a < b then true else if a = b then lexLeB as bs else false

/-- Python s1 < s2 on strings. -/
def strLtB (a b : String) : Bool := lexLtB a.data b.data

/-- Python s1 <= s2 on strings. -/
def strLeB (a b : String) : Bool := lexLeB a.data b.data

/-! ## Decimal formatting (f-strings, strftime) -/

/-- Character for a decimal digit value. -/
def digitCh (d : Nat) : Char := Char.ofNat (48 + d)

/-- Fuel-driven digit extraction; the fuel only bounds the recursion depth
and n + 1 is always sufficient. -/
def decDigitsAux : Nat → Nat → List Char
  | 0, _ => []
  | fuel + 1, n => if n < 10 then [digitCh n] else decDigitsAux fuel (n / 10) ++ [digitCh (n % 10)]

/-- Decimal digits of a natural number, most significant first, no padding.
This is the rendering used by a Python f-string with no format spec. -/
def decDigits (n : Nat) : List Char := decDigitsAux (n + 1) n

/-- Decimal rendering of a natural number as a string. -/
def decRepr (n : Nat) : String := String.mk (decDigits n)

/-- Exactly w decimal digits of n, most significant first (the w least
significant digits of n). -/
def padDigits : Nat → Nat → List Char
  | 0, _ => []
  | w + 1, n => padDigits w (n / 10) ++ [digitCh (n % 10)]

/-- Python 0wd formatting: zero-pad the decimal rendering on the left to a
minimum width of w. -/
def pyPad (w n : Nat) : List Char :=
  List.replicate (w - (decDigits n).length) '0' ++ decDigits n

/-! ## Proleptic Gregorian calendar, as in CPython Lib/datetime.py -/

/-- CPython _is_leap. -/
def isLeap (year : Nat) : Bool :=
  year % 4 == 0 && (year % 100 != 0 || year % 400 == 0)

/-- CPython _DAYS_IN_MONTH (non-leap). -/
def daysInMonthTable : Nat → Nat
  | 1 => 31 | 2 => 28 | 3 => 31 | 4 => 30 | 5 => 31 | 6 => 30
  | 7 => 31 | 8 => 31 | 9 => 30 | 10 => 31 | 11 => 30 | 12 => 31
  | _ => 0

/-- CPython _DAYS_BEFORE_MONTH (non-leap cumulative sums). -/
def daysBeforeMonthTable : Nat → Nat
  | 1 => 0 | 2 => 31 | 3 => 59 | 4 => 90 | 5 => 120 | 6 => 151
  | 7 => 181 | 8 => 212 | 9 => 243 | 10 => 273 | 11 => 304 | 12 => 334
  | _ => 0

/-- CPython _days_in_month. -/
def days_in_month (year month : Nat) : Nat :=
  if month = 2 ∧ isLeap year then 29 else daysInMonthTable month

/-- CPython _days_before_month. -/
def days_before_month (year month : Nat) : Nat :=
  daysBeforeMonthTable month + (if 2 < month ∧ isLeap year then 1 else 0)

/-- CPython _days_before_year: with y := year - 1, the value
y*365 + y//4 - y//100 + y//400, evaluated left to right as in Python. -/
def days_before_year (year : Nat) : Nat :=
  let y := year - 1
  y * 365 + y / 4 - y / 100 + y / 400

/-- CPython _ymd2ord: proleptic Gregorian ordinal, day 1 is 0001-01-01. -/
def ymd2ord (year month day : Nat) : Nat :=
  days_before_year year + days_before_month year month + day

/-- CPython date.weekday on an ordinal: 0 is Monday. -/
def weekdayOf (ord : Nat) : Nat := (ord + 6) % 7

/-- CPython _isoweek1monday: ordinal of the Monday starting ISO week 1 of
the given year.  Integer arithmetic is done in Int; Lean division and
remainder on Int with a positive divisor agree with Python floor division
and modulo. -/
def isoweek1monday (year : Nat) : Int :=
  let firstday : Int := ymd2ord year 1 1
  let firstweekday := (firstday + 6) % 7
  let week1monday := firstday - firstweekday
  if 3 < firstweekday then week1monday + 7 else week1monday

/-- CPython date.isocalendar restricted to the (iso year, iso week) pair,
which is all that current_week_slug consumes. -/
def isocalendarYW (year month day : Nat) : Nat × Nat :=
  let today : Int := ymd2ord year month day
  let week := (today - isoweek1monday year) / 7
  if week < 0 then
    let y2 := year - 1
    (y2, ((today - isoweek1monday y2) / 7 + 1).toNat)
  else if 52 ≤ week ∧ isoweek1monday (year + 1) ≤ today then
    (year + 1, 1)
  else
    (year, (week + 1).toNat)

/-! ## Aware datetimes -/

/-- Python timezone-aware datetime with a fixed-offset timezone: the civil
fields plus the UTC offset in seconds. -/
structure PyDateTime where
  year : Nat
  month : Nat
  day : Nat
  hour : Nat
  minute : Nat
  second : Nat
  usec : Nat
  utcOffset : Int
deriving DecidableEq

/-- Field ranges enforced by the datetime constructor (MINYEAR = 1,
MAXYEAR = 9999). -/
def ValidDT (t : PyDateTime) : Prop :=
  1 ≤ t.year ∧ t.year ≤ 9999 ∧ 1 ≤ t.month ∧ t.month ≤ 12 ∧
  1 ≤ t.day ∧ t.day ≤ days_in_month t.year t.month ∧
  t.hour < 24 ∧ t.minute < 60 ∧ t.second < 60 ∧ t.usec < 1000000

instance (t : PyDateTime) : Decidable (ValidDT t) := by
  unfold ValidDT; infer_instance

/-- Lexicographic comparison of the civil field tuples; CPython compares two
aware datetimes with equal utcoffsets exactly this way (memcmp of the packed
fields). -/
def fieldsLeB (a b : PyDateTime) : Bool :=
  if a.year < b.year then true else if b.year < a.year then false
  else if a.month < b.month then true else if b.month < a.month then false
  else if a.day < b.day then true else if b.day < a.day then false
  else if a.hour < b.hour then true else if b.hour < a.hour then false
  else if a.minute < b.minute then true else if b.minute < a.minute then false
  else if a.second < b.second then true else if b.second < a.second then false
  else decide (a.usec ≤ b.usec)

/-- Absolute instant of an aware datetime in microseconds since the epoch of
the ordinal scale. -/
def instantUs (t : PyDateTime) : Int :=
  (((ymd2ord t.year t.month t.day : Int) * 86400 +
    t.hour * 3600 + t.minute * 60 + t.second) - t.utcOffset) * 1000000 + t.usec

/-- Python comparison d1 <= d2 on aware datetimes: with equal utcoffsets the
field tuples are compared, otherwise the absolute instants. -/
def dtLeB (a b : PyDateTime) : Bool :=
  if a.utcOffset = b.utcOffset then fieldsLeB a b
  else decide (instantUs a ≤ instantUs b)

/-! ## Emission slugs -/

/-- publish_card.make_slug: dt.strftime of Y-m-dTH-M-SZ with zero-padded
fields. -/
def make_slug (t : PyDateTime) : String :=
  String.mk (pyPad 4 t.year ++ ['-'] ++ pyPad 2 t.month ++ ['-'] ++ pyPad 2 t.day ++
    ['T'] ++ pyPad 2 t.hour ++ ['-'] ++ pyPad 2 t.minute ++ ['-'] ++ pyPad 2 t.second ++ ['Z'])

/-- app.current_week_slug: the f-string rendering year-Wweek with the week
zero-padded to two digits. -/
def current_week_slug (t : PyDateTime) : String :=
  let yw := isocalendarYW t.year t.month t.day
  String.mk (decDigits yw.1 ++ ['-', 'W'] ++ pyPad 2 yw.2)

/-! ## Remote content store

The GitHub Contents API surface used by app.py is a path-addressed blob
store.  It is modelled as an association list from path to content; every
PUT and DELETE the code issues is also recorded in an operation trace. -/

/-- Path-addressed remote store. -/
abbrev Store := List (String × String)

/-- Store read (github_get of a contents path): first matching entry. -/
def storeGet (p : String) : Store → Option String
  | [] => none
  | (k, v) :: rest => if k = p then some v else storeGet p rest

/-- Store write (github_put_file): create or update in place. -/
def storePut (p v : String) : Store → Store
  | [] => [(p, v)]
  | (k, w) :: rest => if k = p then (p, v) :: rest else (k, w) :: storePut p v rest

/-- Store delete (github_delete_file): remove the entry when present. -/
def storeDel (p : String) : Store → Store
  | [] => []
  | (k, w) :: rest => if k = p then rest else (k, w) :: storeDel p rest

/-- app.file_exists: existence check through a store read. -/
def file_exists (p : String) (st : Store) : Bool := (storeGet p st).isSome

/-- One remote write or delete operation, recorded with its path. -/
inductive StoreOp where
  | put (path : String)
  | del (path : String)
deriving DecidableEq

/-! ## Configuration (environment block of app.py) -/

/-- Environment configuration of app.py; defaultCfg carries the default
value of every variable. -/
structure Config where
  runWeekday : Nat
  runHour : Nat
  runMinute : Nat
  catchUp : Bool
  token : String
  hasPplxKey : Bool
  maxFeedItems : Nat

/-- Defaults: RUN_WEEKDAY 0, RUN_HOUR 8, RUN_MINUTE 50, RUN_CATCH_UP false,
GITHUB_TOKEN empty, PPLX_API_KEY unset, MAX_FEED_ITEMS 10. -/
def defaultCfg : Config :=
  { runWeekday := 0, runHour := 8, runMinute := 50, catchUp := false,
    token := "", hasPplxKey := false, maxFeedItems := 10 }

/-- SITE_URL with the default owner and repo. -/
def SITE_URL : String := "https://noptus.github.io/btp4ai-wire"

/-! ## News item provider (ai_research_items) -/

/-- Cleaned news item handed to the card builder. -/
structure NewsItem where
  source_logo : String
  headline : String
  meta : String
  url : String
  btp_angle : String
deriving DecidableEq

/-- Raw item as parsed from the provider JSON: every key may be absent. -/
structure RawItem where
  source_logo : Option String
  headline : Option String
  meta : Option String
  url : Option String
  btp_angle : Option String

/-- Outcome of the Perplexity call as observed by ai_research_items:
requestError covers every exception caught by the try block (HTTP errors,
raise_for_status, json decoding errors, shape errors); noJsonMatch is a
response text the regex does not match; parsedItems is a successfully
parsed object, with a missing items key read as the empty list. -/
inductive PplxOutcome where
  | requestError
  | noJsonMatch
  | parsedItems (items : List RawItem)

/-- Python str.split on the bullet separator, first component. -/
def splitBullet (s : String) : String :=
  String.mk (s.data.takeWhile (fun c => c ≠ '•'))

/-- Python str.strip whitespace test. -/
def isPySpace (c : Char) : Bool := c = ' ' || c = '\t' || c = '\n' || c = '\r'

/-- Python str.strip. -/
def pyStrip (s : String) : String :=
  String.mk (((s.data.dropWhile isPySpace).reverse.dropWhile isPySpace).reverse)

/-- app._fallback_items: the fixed static backup set (three items). -/
def fallback_items (whenLocal : String) : List NewsItem :=
  let d := pyStrip (splitBullet whenLocal)
  [ { source_logo := "https://logo.clearbit.com/openai.com",
      headline := "Enterprise AI controls gain traction (audit logs, PII filters, isolation)",
      meta := "BTP4AI Wire • " ++ d,
      url := "https://openai.com/enterprise",
      btp_angle := "Governance patterns map cleanly to Joule + AI Core guardrails." },
    { source_logo := "https://logo.clearbit.com/microsoft.com",
      headline := "Vector search & RAG now standard in enterprise stacks",
      meta := "Microsoft Learn • " ++ d,
      url := "https://learn.microsoft.com/azure/search/search-what-is-azure-search",
      btp_angle := "Ground copilots on SAP data (S/4, docs) with managed vector stores." },
    { source_logo := "https://logo.clearbit.com/cloud.google.com",
      headline := "Long-context models in production: design notes",
      meta := "Google Cloud Blog • " ++ d,
      url := "https://cloud.google.com/blog/products/ai-machine-learning",
      btp_angle := "Contracts/specs use-cases benefit; watch cost/latency." } ]

/-- Hygiene step of ai_research_items: keep an item only when headline and
url are present, defaulting the remaining keys. -/
def cleanItem (it : RawItem) : Option NewsItem :=
  match it.headline, it.url with
  | some h, some u =>
      some { source_logo := it.source_logo.getD "https://logo.clearbit.com/openai.com",
             headline := h, meta := it.meta.getD "Today", url := u,
             btp_angle := it.btp_angle.getD "" }
  | _, _ => none

/-- app.ai_research_items: fallback without an API key, on any caught
exception, on a regex miss, and when no parsed item survives cleaning;
otherwise at most the first three parsed items, cleaned. -/
def ai_research_items (hasKey : Bool) (outcome : PplxOutcome) (whenLocal : String) : List NewsItem :=
  if !hasKey then fallback_items whenLocal
  else
    match outcome with
    | .requestError => fallback_items whenLocal
    | .noJsonMatch => fallback_items whenLocal
    | .parsedItems items =>
        let cleaned := (items.take 3).filterMap cleanItem
        if cleaned.isEmpty then fallback_items whenLocal else cleaned

/-! ## External collaborators of the pipeline -/

/-- Library and collaborator functions the repository code calls but does
not define: hashlib.sha1 hexdigest, base64.b64encode, the card template
renderer (card_template.json is external to the two source files), the
strftime-based banner and label renderers, the HTTP date stamp, and the
Perplexity outcome.  Theorems quantify over this record. -/
structure Collab where
  sha1Hex : String → String
  b64e : String → String
  weekLabel : String → String
  buildCard : String → List NewsItem → String
  whenLocal : PyDateTime → String
  nowHttp : String
  pplxOutcome : PplxOutcome

/-! ## Feed builder (generate_feed) -/

/-- Fields of one RSS item, one per local variable of the generate_feed
loop body. -/
structure FeedEntry where
  title : String
  link : String
  guid : String
  pubDate : String
  description : String
  contentEncoded : String

/-- app.get_card_json_text_b64: fetch the card for a slug, with the empty
object and empty base64 text when absent. -/
def get_card_json_text_b64 (c : Collab) (st : Store) (slug : String) : String × String :=
  match storeGet ("docs/cards/" ++ slug ++ ".json") st with
  | none => ("\x7b\x7d", "")
  | some text => (text, c.b64e text)

/-- Loop body of generate_feed for one slug. -/
def feed_entry (c : Collab) (st : Store) (slug : String) : FeedEntry :=
  let name := slug ++ ".json"
  let link := SITE_URL ++ "/cards/" ++ name
  let tb := get_card_json_text_b64 c st slug
  let b64 := if tb.2 = "" then c.b64e tb.1 else tb.2
  { title := "BTP4AI Wire — Weekly Brief — " ++ c.weekLabel slug,
    link := link,
    guid := c.sha1Hex name,
    pubDate := c.nowHttp,
    description := "<![CDATA[\n<p>Adaptive Card JSON: <a href=\"" ++ link ++ "\">" ++
      name ++ "</a></p>\n<p>[CARD_B64]" ++ b64 ++ "[/CARD_B64]</p>\n]]>",
    contentEncoded := "<![CDATA[" ++ tb.1 ++ "]]>" }

/-- XML rendering of one item. -/
def render_entry (e : FeedEntry) : String :=
  "\n      <item>\n        <title>" ++ e.title ++ "</title>\n        <link>" ++ e.link ++
  "</link>\n        <guid isPermaLink=\"false\">" ++ e.guid ++ "</guid>\n        <pubDate>" ++
  e.pubDate ++ "</pubDate>\n        <description>" ++ e.description ++
  "</description>\n        <content:encoded>" ++ e.contentEncoded ++
  "</content:encoded>\n      </item>"

/-- Entry list of generate_feed: the input truncated to maxItems, in order. -/
def feed_entries (c : Collab) (maxItems : Nat) (st : Store) (slugs : List String) : List FeedEntry :=
  (slugs.take maxItems).map (feed_entry c st)

/-- app.generate_feed: channel header, the rendered entries, footer. -/
def generate_feed (c : Collab) (maxItems : Nat) (st : Store) (slugs : List String) : String :=
  let items := (feed_entries c maxItems st slugs).map render_entry
  "<?xml version=\"1.0\" encoding=\"UTF-8\"?>\n<rss version=\"2.0\"\n  xmlns:content=\"http://purl.org/rss/1.0/modules/content/\">\n  <channel>\n    <title>BTP4AI Wire — Weekly Brief</title>\n    <link>" ++
  SITE_URL ++
  "</link>\n    <description>Weekly AI highlights for SAP EMEA BTP4AI Hub</description>\n    <language>en</language>\n    <lastBuildDate>" ++
  c.nowHttp ++ "</lastBuildDate>\n" ++ String.join items ++ "\n  </channel>\n</rss>\n"

/-! ## Pruning and commit -/

/-- Directory listing of docs/cards: names of entries directly under the
cards directory. -/
def stripCardsDir (p : String) : Option String :=
  match p.data with
  | 'd' :: 'o' :: 'c' :: 's' :: '/' :: 'c' :: 'a' :: 'r' :: 'd' :: 's' :: '/' :: rest =>
      some (String.mk rest)
  | _ => none

/-- Python name.endswith of the json suffix combined with name[:-5]:
returns the stem when the suffix matches. -/
def stripJsonSuffix (name : String) : Option String :=
  match name.data.reverse with
  | 'n' :: 'o' :: 's' :: 'j' :: '.' :: rest => some (String.mk rest.reverse)
  | _ => none

/-- File names the cleanup loop deletes from a listing: json files other
than latest.json whose stem is not kept. -/
def cleanupVictims (keep : List String) (st : Store) : List String :=
  (st.filterMap (fun kv => stripCardsDir kv.1)).filterMap (fun name =>
    match stripJsonSuffix name with
    | none => none
    | some slug =>
        if name = "latest.json" then none
        else if keep.contains slug then none
        else some name)

/-- app.cleanup_cards_except: no-op on an empty keep list, else delete every
victim of the listing. -/
def cleanup_cards_except (keep : List String) (st : Store) : Store × List StoreOp :=
  if keep.isEmpty then (st, [])
  else
    let names := cleanupVictims keep st
    (names.foldl (fun acc name => storeDel ("docs/cards/" ++ name) acc) st,
     names.map (fun name => StoreOp.del ("docs/cards/" ++ name)))

/-- app.ensure_docs_structure: the two placeholder writes (HTTP 409/422
conflict responses are swallowed, so in the model both puts succeed). -/
def ensure_docs_structure (st : Store) : Store × List StoreOp :=
  (storePut "docs/cards/.keep" "" (storePut "docs/.keep" "" st),
   [StoreOp.put "docs/.keep", StoreOp.put "docs/cards/.keep"])

/-- Error surface of publish_once in the model: the configuration error
raised when GITHUB_TOKEN is missing. -/
inductive PubErr where
  | missingToken
deriving DecidableEq

/-- app.commit_card_and_feed: card write, latest pointer, prune to the
current slug, feed rebuild written to both feed paths. -/
def commit_card_and_feed (c : Collab) (maxItems : Nat) (card slug : String) (st : Store) :
    Store × List StoreOp :=
  let st1 := storePut ("docs/cards/" ++ slug ++ ".json") card st
  let st2 := storePut "docs/cards/latest.json" card st1
  let cl := cleanup_cards_except [slug] st2
  let feed := generate_feed c maxItems cl.1 [slug]
  let st4 := storePut "docs/feed.rss" feed cl.1
  let st5 := storePut "docs/feed.xml" feed st4
  (st5,
   [StoreOp.put ("docs/cards/" ++ slug ++ ".json"), StoreOp.put "docs/cards/latest.json"] ++
     cl.2 ++ [StoreOp.put "docs/feed.rss", StoreOp.put "docs/feed.xml"])

/-- app.publish_once: token guard, structure ensure, slug, idempotency
check, then research, card build and commit.  now is the local wall-clock
datetime the code derives from the clock. -/
def publish_once (cfg : Config) (c : Collab) (now : PyDateTime) (st : Store) :
    Except PubErr (Store × List StoreOp) :=
  if cfg.token = "" then .error .missingToken
  else
    let e := ensure_docs_structure st
    let slug := current_week_slug now
    if file_exists ("docs/cards/" ++ slug ++ ".json") e.1 then .ok (e.1, e.2)
    else
      let wl := c.whenLocal now
      let items := ai_research_items cfg.hasPplxKey c.pplxOutcome wl
      let card := c.buildCard wl items
      let cm := commit_card_and_feed c cfg.maxFeedItems card slug e.1
      .ok (cm.1, e.2 ++ cm.2)

/-- Operation trace of a publish_once result; a raised error performed no
operation. -/
def traceOf (r : Except PubErr (Store × List StoreOp)) : List StoreOp :=
  match r with
  | .ok x => x.2
  | .error _ => []

/-- Store state after a publish_once result; a raised error left the store
unchanged. -/
def storeAfter (st : Store) (r : Except PubErr (Store × List StoreOp)) : Store :=
  match r with
  | .ok x => x.1
  | .error _ => st

/-- Number of writes to one path in a trace. -/
def countPut (p : String) (t : List StoreOp) : Nat :=
  (t.filter (fun op => op = StoreOp.put p)).length

/-! ## Scheduler (seconds_until_next_run) -/

/-- Time of day of the configured target, in microseconds. -/
def runTodUs (cfg : Config) : Int := ((cfg.runHour * 3600 + cfg.runMinute * 60 : Nat) : Int) * 1000000

/-- Time of day of a datetime, in microseconds. -/
def todUs (t : PyDateTime) : Int :=
  ((t.hour * 3600 + t.minute * 60 + t.second : Nat) : Int) * 1000000 + t.usec

/-- Proleptic Gregorian ordinal of the date of a datetime. -/
def ordOf (t : PyDateTime) : Int := ymd2ord t.year t.month t.day

/-- app.seconds_until_next_run, a pure function of the local now.  The
target datetime is represented by its (ordinal, time of day) pair, which
determines it; the code returns its isoformat rendering.  The local
timezone is a fixed offset here, so the UTC delta taken by the code equals
the wall-clock delta; the delta is nonnegative in every non-catch-up
branch, so Python truncation toward zero of total_seconds agrees with the
floor division used here. -/
def seconds_until_next_run (cfg : Config) (st : Store) (now : PyDateTime) : Int × (Int × Int) :=
  if cfg.catchUp && !(file_exists ("docs/cards/" ++ current_week_slug now ++ ".json") st) then
    (1, (ordOf now, todUs now))
  else
    let daysAhead := ((cfg.runWeekday : Int) - (weekdayOf (ymd2ord now.year now.month now.day) : Int)) % 7
    let target0 : Int × Int := (ordOf now + daysAhead, runTodUs cfg)
    let target :=
      if daysAhead = 0 ∧ runTodUs cfg ≤ todUs now then (ordOf now + 7, runTodUs cfg) else target0
    let deltaUs := (target.1 - ordOf now) * 86400000000 + (target.2 - todUs now)
    (max 1 (deltaUs / 1000000), target)

/-! ## Concrete fixtures used by witnesses and counterexamples -/

/-- Collaborator instance with inert functions, used to evaluate the
pipeline at concrete inputs. -/
def collabX : Collab :=
  { sha1Hex := fun _ => "h", b64e := fun _ => "b", weekLabel := fun s => s,
    buildCard := fun _ _ => "CARD", whenLocal := fun _ => "Week • CET • SAP EMEA",
    nowHttp := "Mon, 30 Dec 2024 08:00:00 GMT", pplxOutcome := .requestError }

/-- Default configuration with a token configured. -/
def cfgTok : Config := { defaultCfg with token := "tok" }

/-- Monday 2024-12-30 08:00 Paris winter time. -/
def dtMon0800 : PyDateTime := ⟨2024, 12, 30, 8, 0, 0, 0, 3600⟩

/-- Monday 2024-12-30 09:00 Paris winter time. -/
def dtMon0900 : PyDateTime := ⟨2024, 12, 30, 9, 0, 0, 0, 3600⟩

/-- Saturday 2025-01-04 12:00 Paris winter time. -/
def dtSat1200 : PyDateTime := ⟨2025, 1, 4, 12, 0, 0, 0, 3600⟩

/-- Wednesday 2025-01-01 09:00 Paris winter time, ISO week 2025-W01. -/
def dtJan : PyDateTime := ⟨2025, 1, 1, 9, 0, 0, 0, 3600⟩

/-- Store already holding the card of slug 2025-W01 and no feed documents. -/
def stHasCard : Store := [("docs/cards/2025-W01.json", "CARDJSON")]

/-- Monday 2024-12-30 00:30 at UTC offset zero; its ISO week is 2025-W01
and its instant precedes dtMixB. -/
def dtMixA : PyDateTime := ⟨2024, 12, 30, 0, 30, 0, 0, 0⟩

/-- Sunday 2024-12-29 23:00 wall clock at UTC offset -02:00, the instant
2024-12-30 01:00 UTC; its ISO week is 2024-W52. -/
def dtMixB : PyDateTime := ⟨2024, 12, 29, 23, 0, 0, 0, -7200⟩

/-- Monday 2025-01-06 08:00 Paris winter time, ISO week 2025-W02. -/
def dtEqA : PyDateTime := ⟨2025, 1, 6, 8, 0, 0, 0, 3600⟩

/-- Monday 2025-03-03 09:30 Paris winter time, ISO week 2025-W10. -/
def dtEqB : PyDateTime := ⟨2025, 3, 3, 9, 30, 0, 0, 3600⟩

/-- Eleven distinct slugs, one more than the default MAX_FEED_ITEMS. -/
def slugs11 : List String :=
  ["k11", "k10", "k09", "k08", "k07", "k06", "k05", "k04", "k03", "k02", "k01"]

/-! # Theorems -/

/-! ## Digit rendering lemmas -/

theorem decDigitsAux_fuel (fuel n : Nat) (h : n < fuel) :
    decDigitsAux fuel n = decDigits n := by
  induction n using Nat.strong_induction_on generalizing fuel with
  | _ n ih =>
    match fuel, h with
    | f + 1, h =>
      by_cases h10 : n < 10
      · simp [decDigitsAux, decDigits, h10]
      · have hdiv : n / 10 < n := Nat.div_lt_self (by omega) (by omega)
        rw [decDigits, decDigitsAux, if_neg h10, decDigitsAux, if_neg h10]
        rw [ih (n / 10) hdiv f (by omega), ih (n / 10) hdiv n (by omega)]

theorem decDigits_lt (n : Nat) (h : n < 10) : decDigits n = [digitCh n] := by
  rw [decDigits, decDigitsAux, if_pos h]

theorem decDigits_ge (n : Nat) (h : 10 ≤ n) :
    decDigits n = decDigits (n / 10) ++ [digitCh (n % 10)] := by
  rw [decDigits, decDigitsAux, if_neg (by omega)]
  rw [decDigitsAux_fuel n (n / 10) (Nat.div_lt_self (by omega) (by omega))]

/-! ## Store lemmas -/

theorem storeGet_put_self (p v : String) (st : Store) :
    storeGet p (storePut p v st) = some v := by
  induction st with
  | nil => simp [storePut, storeGet]
  | cons kv rest ih =>
    obtain ⟨k, w⟩ := kv
    by_cases h : k = p
    · subst h; simp [storePut, storeGet]
    · simp [storePut, storeGet, h, ih]

theorem storeGet_put_ne (p q v : String) (st : Store) (h : q ≠ p) :
    storeGet q (storePut p v st) = storeGet q st := by
  induction st with
  | nil => simp [storePut, storeGet, Ne.symm h]
  | cons kv rest ih =>
    obtain ⟨k, w⟩ := kv
    by_cases hk : k = p
    · subst hk
      simp [storePut, storeGet, Ne.symm h]
    · simp [storePut, storeGet, hk, ih]

theorem storeGet_del_ne (p q : String) (st : Store) (h : q ≠ p) :
    storeGet q (storeDel p st) = storeGet q st := by
  induction st with
  | nil => simp [storeDel]
  | cons kv rest ih =>
    obtain ⟨k, w⟩ := kv
    by_cases hk : k = p
    · subst hk
      have : ¬ k = q := fun hq => h (hq ▸ rfl)
      simp [storeDel, storeGet, this]
    · simp [storeDel, storeGet, hk, ih]

/-! ## C10 -/

/-- C10: cleanup_cards_except called with an empty keep list returns the
store unchanged and issues no delete operation, so an empty retained-slug
set can never remove stored cards. -/
theorem cleanup_empty_keep_is_noop (st : Store) :
    cleanup_cards_except [] st = (st, []) := by
  simp [cleanup_cards_except]

/-! ## C9 -/

/-- C9: ai_research_items is total (the model enumerates every outcome of
the request, including each caught exception) and returns at most three
items in every case; without an API key, on a caught request or parse
error, on a regex miss, and when no parsed item survives cleaning it
returns the fixed fallback set. -/
theorem ai_items_bounded_and_fallback (k : Bool) (o : PplxOutcome) (w : String) :
    (ai_research_items k o w).length ≤ 3 ∧
    ai_research_items false o w = fallback_items w ∧
    ai_research_items k PplxOutcome.requestError w = fallback_items w ∧
    ai_research_items k PplxOutcome.noJsonMatch w = fallback_items w ∧
    ai_research_items k (PplxOutcome.parsedItems []) w = fallback_items w := by
  have hfb : (fallback_items w).length = 3 := rfl
  refine ⟨?_, ?_, ?_, ?_, ?_⟩
  · cases k with
    | false => simpa [ai_research_items] using hfb.le
    | true =>
      cases o with
      | requestError => simpa [ai_research_items] using hfb.le
      | noJsonMatch => simpa [ai_research_items] using hfb.le
      | parsedItems items =>
        by_cases he : ((items.take 3).filterMap cleanItem).isEmpty
        · simpa [ai_research_items, he] using hfb.le
        · have h1 : ((items.take 3).filterMap cleanItem).length ≤ (items.take 3).length :=
            List.length_filterMap_le _ _
          have h2 : (items.take 3).length ≤ 3 := List.length_take_le _ _
          simpa [ai_research_items, he] using le_trans h1 h2
  · simp [ai_research_items]
  · cases k <;> simp [ai_research_items]
  · cases k <;> simp [ai_research_items]
  · cases k <;> simp [ai_research_items, List.filterMap]

/-! ## C8 -/

/-- C8: publish_once returns the missing-token configuration error exactly
when GITHUB_TOKEN is empty, and in that case its trace is empty and the
store is left unchanged, so the failure precedes every store write. -/
theorem publish_once_config_error_iff (cfg : Config) (c : Collab) (now : PyDateTime) (st : Store) :
    (publish_once cfg c now st = Except.error PubErr.missingToken ↔ cfg.token = "") ∧
    (cfg.token = "" → traceOf (publish_once cfg c now st) = [] ∧
      storeAfter st (publish_once cfg c now st) = st) := by
  by_cases h : cfg.token = ""
  · simp [publish_once, h, traceOf, storeAfter]
  · refine ⟨⟨fun hc => ?_, fun hc => absurd hc h⟩, fun hc => absurd hc h⟩
    rw [publish_once, if_neg h] at hc
    by_cases hf : file_exists ("docs/cards/" ++ current_week_slug now ++ ".json")
        (ensure_docs_structure st).1 = true
    · simp [hf] at hc
    · simp [hf] at hc

/-- Witness for C8 at the default configuration, whose token is empty. -/
theorem publish_once_config_error_iff_witness :
    publish_once defaultCfg collabX dtJan [] = Except.error PubErr.missingToken ∧
    traceOf (publish_once defaultCfg collabX dtJan []) = [] := by
  have h := publish_once_config_error_iff defaultCfg collabX dtJan []
  exact ⟨h.1.mpr rfl, (h.2 rfl).1⟩

/-! ## C7 -/

/-- C7: the guid of every rendered feed entry is the hash of the card file
name derived from its slug alone; two renders from the same slug list agree
on the whole guid sequence whatever the store contents, timestamps, label
renderer, encoder state or provider outcome are. -/
theorem feed_guids_slug_determined (sha1 b1 b2 wl1 wl2 : String → String)
    (bc1 bc2 : String → List NewsItem → String) (wloc1 wloc2 : PyDateTime → String)
    (nh1 nh2 : String) (po1 po2 : PplxOutcome) (m : Nat) (st1 st2 : Store)
    (slugs : List String) :
    (feed_entries ⟨sha1, b1, wl1, bc1, wloc1, nh1, po1⟩ m st1 slugs).map FeedEntry.guid =
      (slugs.take m).map (fun s => sha1 (s ++ ".json")) ∧
    (feed_entries ⟨sha1, b1, wl1, bc1, wloc1, nh1, po1⟩ m st1 slugs).map FeedEntry.guid =
      (feed_entries ⟨sha1, b2, wl2, bc2, wloc2, nh2, po2⟩ m st2 slugs).map FeedEntry.guid := by
  have h : ∀ (bz wz : String → String) (bcz : String → List NewsItem → String)
      (wlz : PyDateTime → String) (nz : String) (pz : PplxOutcome) (stz : Store),
      (feed_entries ⟨sha1, bz, wz, bcz, wlz, nz, pz⟩ m stz slugs).map FeedEntry.guid =
        (slugs.take m).map (fun s => sha1 (s ++ ".json")) := by
    intro bz wz bcz wlz nz pz stz
    simp only [feed_entries, List.map_map]
    rfl
  exact ⟨h b1 wl1 bc1 wloc1 nh1 po1 st1,
    (h b1 wl1 bc1 wloc1 nh1 po1 st1).trans (h b2 wl2 bc2 wloc2 nh2 po2 st2).symm⟩

/-! ## C4 -/

/-- C4: the rendered feed entries are exactly the first maxItems input
slugs in the given order: the entry count is the minimum of maxItems and
the input length (so exactly maxItems for any longer input), and the entry
at every index below maxItems is the rendering of the input slug at the
same index. -/
theorem feed_order_and_bound (c : Collab) (m : Nat) (st : Store) (slugs : List String) :
    (feed_entries c m st slugs).length = min m slugs.length ∧
    (m < slugs.length → (feed_entries c m st slugs).length = m) ∧
    (∀ i, i < m → (feed_entries c m st slugs)[i]? = slugs[i]?.map (feed_entry c st)) := by
  refine ⟨?_, ?_, ?_⟩
  · simp [feed_entries]
  · intro h
    simp only [feed_entries, List.length_map, List.length_take]
    omega
  · intro i hi
    simp [feed_entries, List.getElem?_map, List.getElem?_take_of_lt hi]

/-- Witness for C4: eleven slugs with the default bound of ten render to
exactly ten entries, and the first entry is the rendering of the first
slug. -/
theorem feed_order_and_bound_witness :
    10 < slugs11.length ∧ (feed_entries collabX 10 [] slugs11).length = 10 ∧
    (feed_entries collabX 10 [] slugs11)[0]? = some (feed_entry collabX [] "k11") := by
  refine ⟨by decide, (feed_order_and_bound collabX 10 [] slugs11).2.1 (by decide), ?_⟩
  have h := (feed_order_and_bound collabX 10 [] slugs11).2.2 0 (by norm_num)
  rw [h]; rfl

/-! ## C3 -/

/-- C3: with the default cadence (weekday 0 at 08:50, no catch-up), when
now falls on the configured weekday the scheduler targets today at the run
time as long as that time of day is still strictly ahead, and once the run
time has passed it targets the same weekday of the following week; the
returned delay is the wall-clock distance to the target in seconds. -/
theorem scheduler_same_day_or_next_week (st : Store) (now : PyDateTime)
    (hwd : weekdayOf (ymd2ord now.year now.month now.day) = 0) :
    (todUs now < runTodUs defaultCfg →
      seconds_until_next_run defaultCfg st now =
        (max 1 ((runTodUs defaultCfg - todUs now) / 1000000),
         (ordOf now, runTodUs defaultCfg))) ∧
    (runTodUs defaultCfg ≤ todUs now →
      seconds_until_next_run defaultCfg st now =
        (max 1 ((7 * 86400000000 + (runTodUs defaultCfg - todUs now)) / 1000000),
         (ordOf now + 7, runTodUs defaultCfg))) := by
  have hcfg : defaultCfg.catchUp = false := rfl
  have hrw : defaultCfg.runWeekday = 0 := rfl
  constructor
  · intro h
    have hn : ¬ (runTodUs defaultCfg ≤ todUs now) := not_le.mpr h
    simp only [seconds_until_next_run, hcfg, Bool.false_and, Bool.false_eq_true, if_false,
      hwd, hrw, Nat.cast_zero, sub_zero, Prod.mk.injEq]
    norm_num [hn]
  · intro h
    simp only [seconds_until_next_run, hcfg, Bool.false_and, Bool.false_eq_true, if_false,
      hwd, hrw, Nat.cast_zero, sub_zero, Prod.mk.injEq]
    norm_num [h]

/-- Witness for C3: Monday 2024-12-30 at 08:00 yields a 3000 second delay
(50 minutes) with target today at 08:50; at 09:00 the target moves to the
following Monday (ordinal 739257) at 08:50. -/
theorem scheduler_same_day_or_next_week_witness :
    seconds_until_next_run defaultCfg [] dtMon0800 = (3000, (739250, 31800000000)) ∧
    seconds_until_next_run defaultCfg [] dtMon0900 = (604200, (739257, 31800000000)) := by
  constructor
  · have h := (scheduler_same_day_or_next_week [] dtMon0800 (by decide)).1 (by decide)
    rw [h]; decide
  · have h := (scheduler_same_day_or_next_week [] dtMon0900 (by decide)).2 (by decide)
    rw [h]; decide

/-! ## C6 -/

/-- C6: on any Saturday the default-configured scheduler targets the day
two days ahead, the following Monday, at the run time; and for every
non-catch-up configuration the target always falls on the configured
weekday, so a weekday-only configuration never schedules a weekend run. -/
theorem scheduler_weekend_skip (st : Store) (now : PyDateTime)
    (hwd : weekdayOf (ymd2ord now.year now.month now.day) = 5) :
    seconds_until_next_run defaultCfg st now =
      (max 1 ((2 * 86400000000 + (runTodUs defaultCfg - todUs now)) / 1000000),
       (ordOf now + 2, runTodUs defaultCfg)) ∧
    weekdayOf (ymd2ord now.year now.month now.day + 2) = 0 ∧
    (∀ cfg : Config, cfg.catchUp = false → cfg.runWeekday < 7 →
      ((seconds_until_next_run cfg st now).2.1 + 6) % 7 = (cfg.runWeekday : Int)) := by
  have hcfg : defaultCfg.catchUp = false := rfl
  have hrw : defaultCfg.runWeekday = 0 := rfl
  refine ⟨?_, ?_, ?_⟩
  · simp only [seconds_until_next_run, hcfg, Bool.false_and, Bool.false_eq_true, if_false,
      hwd, hrw, Prod.mk.injEq]
    norm_num
  · simp only [weekdayOf] at hwd ⊢
    omega
  · intro cfg hcu hrw7
    have hcast : ((weekdayOf (ymd2ord now.year now.month now.day)) : Int) =
        (((ymd2ord now.year now.month now.day : Nat) : Int) + 6) % 7 := by
      simp only [weekdayOf]
      push_cast
      rfl
    simp only [seconds_until_next_run, hcu, Bool.false_and, Bool.false_eq_true, if_false,
      ordOf]
    by_cases hb : (((cfg.runWeekday : Nat) : Int) -
        ((weekdayOf (ymd2ord now.year now.month now.day) : Nat) : Int)) % 7 = 0 ∧
        runTodUs cfg ≤ todUs now
    · rw [if_pos hb]
      obtain ⟨hb1, _⟩ := hb
      rw [hcast] at hb1
      have hlt : (cfg.runWeekday : Int) < 7 := by exact_mod_cast hrw7
      have hge : (0 : Int) ≤ (cfg.runWeekday : Int) := Int.ofNat_nonneg _
      omega
    · rw [if_neg hb]
      rw [hcast]
      have hlt : (cfg.runWeekday : Int) < 7 := by exact_mod_cast hrw7
      have hge : (0 : Int) ≤ (cfg.runWeekday : Int) := Int.ofNat_nonneg _
      omega

/-- Witness for C6: Saturday 2025-01-04 at noon is scheduled for Monday
2025-01-06 (ordinal 739257) at 08:50, whose weekday is Monday. -/
theorem scheduler_weekend_skip_witness :
    seconds_until_next_run defaultCfg [] dtSat1200 = (161400, (739257, 31800000000)) ∧
    weekdayOf 739257 = 0 := by
  have h := scheduler_weekend_skip [] dtSat1200 (by decide)
  constructor
  · rw [h.1]; decide
  · have h2 := h.2.1
    simpa using h2

/-! ## Path disjointness lemmas for the pipeline -/

theorem append_singleton_inj {A B : List Char} {x y : Char} (h : A ++ [x] = B ++ [y]) :
    x = y := by
  have := congrArg List.getLast? h
  simpa [List.getLast?_concat] using this

theorem decDigits_concat (n : Nat) : ∃ l, decDigits n = l ++ [digitCh (n % 10)] := by
  by_cases h : n < 10
  · exact ⟨[], by rw [decDigits_lt n h, Nat.mod_eq_of_lt h]; simp⟩
  · exact ⟨decDigits (n / 10), decDigits_ge n (by omega)⟩

theorem digitCh_ne_t (d : Nat) (hd : d < 10) : digitCh d ≠ 't' := by
  interval_cases d <;> decide

theorem cws_ne_latest (t : PyDateTime) : current_week_slug t ≠ "latest" := by
  intro h
  have hdata := congrArg String.data h
  obtain ⟨l, hl⟩ := decDigits_concat (isocalendarYW t.year t.month t.day).2
  rw [current_week_slug] at hdata
  simp only [pyPad, hl] at hdata
  have hrev := congrArg List.reverse hdata
  simp [List.reverse_append] at hrev
  exact digitCh_ne_t _ (Nat.mod_lt _ (by norm_num)) hrev.1

theorem cardPath_ne_keep1 (slug : String) :
    ("docs/cards/" ++ slug ++ ".json") ≠ "docs/.keep" := by
  intro h
  have hlen := congrArg String.length h
  rw [String.length_append, String.length_append] at hlen
  have h1 : ("docs/cards/" : String).length = 11 := rfl
  have h2 : (".json" : String).length = 5 := rfl
  have h3 : ("docs/.keep" : String).length = 10 := rfl
  omega

theorem cardPath_ne_keep2 (slug : String) :
    ("docs/cards/" ++ slug ++ ".json") ≠ "docs/cards/.keep" := by
  intro h
  have hlen := congrArg String.length h
  rw [String.length_append, String.length_append] at hlen
  have h1 : ("docs/cards/" : String).length = 11 := rfl
  have h2 : (".json" : String).length = 5 := rfl
  have h3 : ("docs/cards/.keep" : String).length = 16 := rfl
  have hs : slug.length = 0 := by omega
  have hdata : slug.data.length = 0 := hs
  have hempty : slug = "" := String.ext (List.length_eq_zero.mp hdata)
  subst hempty
  exact absurd h (by decide)

theorem cardPath_ne_rss (slug : String) :
    ("docs/cards/" ++ slug ++ ".json") ≠ "docs/feed.rss" := by
  intro h
  have hlen := congrArg String.length h
  rw [String.length_append, String.length_append] at hlen
  have h1 : ("docs/cards/" : String).length = 11 := rfl
  have h2 : (".json" : String).length = 5 := rfl
  have h3 : ("docs/feed.rss" : String).length = 13 := rfl
  omega

theorem cardPath_ne_xml (slug : String) :
    ("docs/cards/" ++ slug ++ ".json") ≠ "docs/feed.xml" := by
  intro h
  have hlen := congrArg String.length h
  rw [String.length_append, String.length_append] at hlen
  have h1 : ("docs/cards/" : String).length = 11 := rfl
  have h2 : (".json" : String).length = 5 := rfl
  have h3 : ("docs/feed.xml" : String).length = 13 := rfl
  omega

theorem cardPath_ne_latest (t : PyDateTime) :
    ("docs/cards/" ++ current_week_slug t ++ ".json") ≠ "docs/cards/latest.json" := by
  intro h
  have hdata := congrArg String.data h
  rw [show ("docs/cards/latest.json" : String) = "docs/cards/" ++ "latest" ++ ".json" from rfl]
      at hdata
  simp only [String.data_append, List.append_assoc] at hdata
  have hcancel := List.append_cancel_left hdata
  have hinj := List.append_inj' hcancel rfl
  exact cws_ne_latest t (String.ext hinj.1)

theorem cardPath_inj {a b : String}
    (h : ("docs/cards/" ++ a ++ ".json") = "docs/cards/" ++ b ++ ".json") : a = b := by
  have hdata := congrArg String.data h
  simp only [String.data_append, List.append_assoc] at hdata
  have hcancel := List.append_cancel_left hdata
  have hlen : a.data.length = b.data.length := by
    have := congrArg List.length hcancel
    simp at this
    have ha : a.length = a.data.length := rfl
    have hb : b.length = b.data.length := rfl
    omega
  exact String.ext (List.append_inj hcancel (by simpa using hlen)).1

/-! ## Pipeline lemmas -/

theorem file_exists_ensure (p : String) (st : Store) (h1 : p ≠ "docs/.keep")
    (h2 : p ≠ "docs/cards/.keep") :
    file_exists p (ensure_docs_structure st).1 = file_exists p st := by
  rw [file_exists, file_exists, ensure_docs_structure]
  rw [show ((storePut "docs/cards/.keep" "" (storePut "docs/.keep" "" st),
      [StoreOp.put "docs/.keep", StoreOp.put "docs/cards/.keep"]).1 : Store) =
    storePut "docs/cards/.keep" "" (storePut "docs/.keep" "" st) from rfl]
  rw [storeGet_put_ne _ _ _ _ h2, storeGet_put_ne _ _ _ _ h1]

theorem publish_once_skip (cfg : Config) (c : Collab) (now : PyDateTime) (st : Store)
    (htok : cfg.token ≠ "")
    (hex : file_exists ("docs/cards/" ++ current_week_slug now ++ ".json")
      (ensure_docs_structure st).1 = true) :
    publish_once cfg c now st =
      Except.ok ((ensure_docs_structure st).1,
        [StoreOp.put "docs/.keep", StoreOp.put "docs/cards/.keep"]) := by
  rw [publish_once, if_neg htok]
  simp [hex]
  rfl

theorem publish_once_fresh (cfg : Config) (c : Collab) (now : PyDateTime) (st : Store)
    (htok : cfg.token ≠ "")
    (hex : file_exists ("docs/cards/" ++ current_week_slug now ++ ".json")
      (ensure_docs_structure st).1 = false) :
    publish_once cfg c now st =
      Except.ok ((commit_card_and_feed c cfg.maxFeedItems
          (c.buildCard (c.whenLocal now)
            (ai_research_items cfg.hasPplxKey c.pplxOutcome (c.whenLocal now)))
          (current_week_slug now) (ensure_docs_structure st).1).1,
        [StoreOp.put "docs/.keep", StoreOp.put "docs/cards/.keep"] ++
          (commit_card_and_feed c cfg.maxFeedItems
            (c.buildCard (c.whenLocal now)
              (ai_research_items cfg.hasPplxKey c.pplxOutcome (c.whenLocal now)))
            (current_week_slug now) (ensure_docs_structure st).1).2) := by
  rw [publish_once, if_neg htok]
  simp [hex]
  rfl

theorem stripJsonSuffix_eq {name s : String} (h : stripJsonSuffix name = some s) :
    name = s ++ ".json" := by
  rw [stripJsonSuffix] at h
  split at h
  case h_1 rest heq =>
    injection h with hs
    apply String.ext
    have hrev : name.data = ('n' :: 'o' :: 's' :: 'j' :: '.' :: rest).reverse := by
      rw [← heq, List.reverse_reverse]
    rw [hrev, ← hs]
    simp [String.data_append]
  case h_2 => exact absurd h (by simp)

theorem storeGet_foldDel (P : String) (names : List String) (st : Store)
    (h : ∀ n ∈ names, ("docs/cards/" ++ n) ≠ P) :
    storeGet P (names.foldl (fun acc name => storeDel ("docs/cards/" ++ name) acc) st) =
      storeGet P st := by
  induction names generalizing st with
  | nil => rfl
  | cons a rest ih =>
    rw [List.foldl_cons]
    rw [ih _ (fun n hn => h n (List.mem_cons_of_mem a hn))]
    exact storeGet_del_ne _ _ _ (Ne.symm (h a (List.mem_cons_self a rest)))

theorem cleanup_preserves (t : PyDateTime) (st : Store) :
    storeGet ("docs/cards/" ++ current_week_slug t ++ ".json")
      (cleanup_cards_except [current_week_slug t] st).1 =
    storeGet ("docs/cards/" ++ current_week_slug t ++ ".json") st := by
  rw [cleanup_cards_except]
  rw [if_neg (by simp)]
  apply storeGet_foldDel
  intro n hn hEq
  rw [cleanupVictims] at hn
  obtain ⟨name0, hmem, hfn⟩ := List.mem_filterMap.mp hn
  split at hfn
  case h_1 => exact absurd hfn (by simp)
  case h_2 s0 heq =>
    split_ifs at hfn with hlat hk
    all_goals simp at hfn
    have hname := hfn
    have hjson := stripJsonSuffix_eq heq
    rw [← hname, hjson] at hEq
    have hassoc : "docs/cards/" ++ (s0 ++ ".json") = ("docs/cards/" ++ s0) ++ ".json" := by
      apply String.ext; simp [String.data_append]
    have hs0 : s0 = current_week_slug t := cardPath_inj (by rw [← hassoc]; exact hEq)
    rw [hs0] at hk
    simp at hk

theorem card_exists_after_publish (cfg : Config) (c : Collab) (now : PyDateTime) (st : Store)
    (htok : cfg.token ≠ "") :
    file_exists ("docs/cards/" ++ current_week_slug now ++ ".json")
      (storeAfter st (publish_once cfg c now st)) = true := by
  by_cases hex : file_exists ("docs/cards/" ++ current_week_slug now ++ ".json")
      (ensure_docs_structure st).1 = true
  · rw [publish_once_skip cfg c now st htok hex]
    exact hex
  · have hex' : file_exists ("docs/cards/" ++ current_week_slug now ++ ".json")
        (ensure_docs_structure st).1 = false := by
      simpa using hex
    rw [publish_once_fresh cfg c now st htok hex']
    simp only [storeAfter]
    rw [commit_card_and_feed]
    simp only [file_exists]
    rw [storeGet_put_ne _ _ _ _ (cardPath_ne_xml _),
      storeGet_put_ne _ _ _ _ (cardPath_ne_rss _),
      cleanup_preserves now _,
      storeGet_put_ne _ _ _ _ (cardPath_ne_latest now),
      storeGet_put_self]
    rfl

theorem countPut_keeps (P : String) (h1 : P ≠ "docs/.keep") (h2 : P ≠ "docs/cards/.keep") :
    countPut P [StoreOp.put "docs/.keep", StoreOp.put "docs/cards/.keep"] = 0 := by
  simp [countPut, Ne.symm h1, Ne.symm h2]

theorem filter_put_dels (P : String) (names : List String) :
    (names.map (fun name => StoreOp.del ("docs/cards/" ++ name))).filter
      (fun op => op = StoreOp.put P) = [] := by
  rw [List.filter_eq_nil_iff.mpr]
  intro a ha
  obtain ⟨n, _, hn⟩ := List.mem_map.mp ha
  simp [← hn]

theorem countPut_commit (c : Collab) (mi : Nat) (card : String) (t : PyDateTime) (st : Store) :
    countPut ("docs/cards/" ++ current_week_slug t ++ ".json")
      (commit_card_and_feed c mi card (current_week_slug t) st).2 = 1 := by
  rw [commit_card_and_feed]
  simp only []
  rw [cleanup_cards_except, if_neg (by simp)]
  simp only [countPut, List.filter_append, List.length_append]
  rw [filter_put_dels]
  simp [Ne.symm (cardPath_ne_latest t), Ne.symm (cardPath_ne_rss (current_week_slug t)),
    Ne.symm (cardPath_ne_xml (current_week_slug t))]

/-! ## C1 -/

/-- C1 counterexample: with the card for the current slug already present,
publish_once still issues the two placeholder writes of
ensure_docs_structure before the idempotency check returns, so the call is
not free of store writes. -/
theorem publish_once_repeat_writes_cex :
    file_exists ("docs/cards/" ++ current_week_slug dtJan ++ ".json") stHasCard = true ∧
    traceOf (publish_once cfgTok collabX dtJan stHasCard) =
      [StoreOp.put "docs/.keep", StoreOp.put "docs/cards/.keep"] ∧
    traceOf (publish_once cfgTok collabX dtJan stHasCard) ≠ [] := by decide

/-- C1 amended: repeated invocations write the Card of a slug at most once.
Calling publish_once twice in the same slug period yields at most one write
to the Card path in the two traces together, the second call returns right
after the idempotency check with a trace holding exactly the two
placeholder puts of ensure_docs_structure, and it writes no Card. -/
theorem publish_once_card_write_once (cfg : Config) (c1 c2 : Collab) (now1 now2 : PyDateTime)
    (st : Store) (htok : cfg.token ≠ "")
    (hs : current_week_slug now2 = current_week_slug now1) :
    countPut ("docs/cards/" ++ current_week_slug now1 ++ ".json")
        (traceOf (publish_once cfg c1 now1 st)) +
      countPut ("docs/cards/" ++ current_week_slug now1 ++ ".json")
        (traceOf (publish_once cfg c2 now2 (storeAfter st (publish_once cfg c1 now1 st)))) ≤ 1 ∧
    traceOf (publish_once cfg c2 now2 (storeAfter st (publish_once cfg c1 now1 st))) =
      [StoreOp.put "docs/.keep", StoreOp.put "docs/cards/.keep"] ∧
    countPut ("docs/cards/" ++ current_week_slug now1 ++ ".json")
      (traceOf (publish_once cfg c2 now2 (storeAfter st (publish_once cfg c1 now1 st)))) = 0 := by
  have hafter := card_exists_after_publish cfg c1 now1 st htok
  have hP2 : file_exists ("docs/cards/" ++ current_week_slug now2 ++ ".json")
      (ensure_docs_structure (storeAfter st (publish_once cfg c1 now1 st))).1 = true := by
    rw [file_exists_ensure _ _ (cardPath_ne_keep1 _) (cardPath_ne_keep2 _), hs]
    exact hafter
  have hskip2 := publish_once_skip cfg c2 now2 _ htok hP2
  have htrace2 : traceOf (publish_once cfg c2 now2 (storeAfter st (publish_once cfg c1 now1 st))) =
      [StoreOp.put "docs/.keep", StoreOp.put "docs/cards/.keep"] := by
    rw [hskip2]; rfl
  have hcount2 : countPut ("docs/cards/" ++ current_week_slug now1 ++ ".json")
      (traceOf (publish_once cfg c2 now2 (storeAfter st (publish_once cfg c1 now1 st)))) = 0 := by
    rw [htrace2]
    exact countPut_keeps _ (cardPath_ne_keep1 _) (cardPath_ne_keep2 _)
  refine ⟨?_, htrace2, hcount2⟩
  rw [hcount2]
  by_cases hex : file_exists ("docs/cards/" ++ current_week_slug now1 ++ ".json")
      (ensure_docs_structure st).1 = true
  · rw [publish_once_skip cfg c1 now1 st htok hex]
    simp only [traceOf]
    have h0 := countPut_keeps ("docs/cards/" ++ current_week_slug now1 ++ ".json")
      (cardPath_ne_keep1 _) (cardPath_ne_keep2 _)
    omega
  · have hex' : file_exists ("docs/cards/" ++ current_week_slug now1 ++ ".json")
        (ensure_docs_structure st).1 = false := by simpa using hex
    rw [publish_once_fresh cfg c1 now1 st htok hex']
    simp only [traceOf, countPut, List.filter_append, List.length_append]
    have hk := countPut_keeps ("docs/cards/" ++ current_week_slug now1 ++ ".json")
      (cardPath_ne_keep1 _) (cardPath_ne_keep2 _)
    rw [countPut] at hk
    have hc := countPut_commit c1 cfg.maxFeedItems
      (c1.buildCard (c1.whenLocal now1)
        (ai_research_items cfg.hasPplxKey c1.pplxOutcome (c1.whenLocal now1)))
      now1 (ensure_docs_structure st).1
    rw [countPut] at hc
    omega

/-- Witness for C1 at a concrete configuration, collaborator pair, time and
store. -/
theorem publish_once_card_write_once_witness :
    countPut ("docs/cards/" ++ current_week_slug dtJan ++ ".json")
        (traceOf (publish_once cfgTok collabX dtJan stHasCard)) +
      countPut ("docs/cards/" ++ current_week_slug dtJan ++ ".json")
        (traceOf (publish_once cfgTok collabX dtJan
          (storeAfter stHasCard (publish_once cfgTok collabX dtJan stHasCard)))) ≤ 1 ∧
    traceOf (publish_once cfgTok collabX dtJan
        (storeAfter stHasCard (publish_once cfgTok collabX dtJan stHasCard))) =
      [StoreOp.put "docs/.keep", StoreOp.put "docs/cards/.keep"] ∧
    countPut ("docs/cards/" ++ current_week_slug dtJan ++ ".json")
      (traceOf (publish_once cfgTok collabX dtJan
        (storeAfter stHasCard (publish_once cfgTok collabX dtJan stHasCard)))) = 0 :=
  publish_once_card_write_once cfgTok collabX collabX dtJan dtJan stHasCard (by decide) rfl

/-! ## C2 -/

/-- C2 counterexample: a store holding the card of the current slug but no
feed document; publish_once returns after the idempotency check without
writing docs/feed.rss or docs/feed.xml, so the stale feed is not healed. -/
theorem feed_rebuild_gated_cex :
    file_exists ("docs/cards/" ++ current_week_slug dtJan ++ ".json") stHasCard = true ∧
    file_exists "docs/feed.rss" stHasCard = false ∧
    file_exists "docs/feed.xml" stHasCard = false ∧
    countPut "docs/feed.rss" (traceOf (publish_once cfgTok collabX dtJan stHasCard)) = 0 ∧
    countPut "docs/feed.xml" (traceOf (publish_once cfgTok collabX dtJan stHasCard)) = 0 := by
  decide

/-- C2 amended: feed regeneration is gated on the Card of the current slug
not existing yet: an invocation whose idempotency check finds the Card
returns with only the two placeholder writes and does not rewrite either
feed document. -/
theorem feed_rebuild_gated_on_fresh_card (cfg : Config) (c : Collab) (now : PyDateTime)
    (st : Store) (htok : cfg.token ≠ "")
    (hex : file_exists ("docs/cards/" ++ current_week_slug now ++ ".json") st = true) :
    traceOf (publish_once cfg c now st) =
      [StoreOp.put "docs/.keep", StoreOp.put "docs/cards/.keep"] ∧
    countPut "docs/feed.rss" (traceOf (publish_once cfg c now st)) = 0 ∧
    countPut "docs/feed.xml" (traceOf (publish_once cfg c now st)) = 0 := by
  have hex' : file_exists ("docs/cards/" ++ current_week_slug now ++ ".json")
      (ensure_docs_structure st).1 = true := by
    rw [file_exists_ensure _ _ (cardPath_ne_keep1 _) (cardPath_ne_keep2 _)]
    exact hex
  have hskip := publish_once_skip cfg c now st htok hex'
  have htr : traceOf (publish_once cfg c now st) =
      [StoreOp.put "docs/.keep", StoreOp.put "docs/cards/.keep"] := by rw [hskip]; rfl
  refine ⟨htr, ?_, ?_⟩ <;> rw [htr] <;> decide

/-- Witness for C2 at a concrete configuration, time and store. -/
theorem feed_rebuild_gated_on_fresh_card_witness :
    traceOf (publish_once cfgTok collabX dtJan stHasCard) =
      [StoreOp.put "docs/.keep", StoreOp.put "docs/cards/.keep"] ∧
    countPut "docs/feed.rss" (traceOf (publish_once cfgTok collabX dtJan stHasCard)) = 0 ∧
    countPut "docs/feed.xml" (traceOf (publish_once cfgTok collabX dtJan stHasCard)) = 0 :=
  feed_rebuild_gated_on_fresh_card cfgTok collabX dtJan stHasCard (by decide) (by decide)

/-! ## Lexicographic order lemmas -/

theorem lexLeB_refl (l : List Char) : lexLeB l l = true := by
  induction l with
  | nil => rfl
  | cons a as ih => simp [lexLeB, lt_irrefl, ih]

theorem lexLeB_cons_same (c : Char) (u v : List Char) :
    lexLeB (c :: u) (c :: v) = lexLeB u v := by
  simp [lexLeB, lt_irrefl]

theorem lexLeB_append_same (p u v : List Char) :
    lexLeB (p ++ u) (p ++ v) = lexLeB u v := by
  induction p with
  | nil => rfl
  | cons a as ih => simp [List.cons_append, lexLeB, lt_irrefl, ih]

theorem lexLtB_append_same (p u v : List Char) :
    lexLtB (p ++ u) (p ++ v) = lexLtB u v := by
  induction p with
  | nil => rfl
  | cons a as ih => simp [List.cons_append, lexLtB, lt_irrefl, ih]

theorem lexLeB_of_lexLtB (a b : List Char) (h : lexLtB a b = true) : lexLeB a b = true := by
  induction a generalizing b with
  | nil => cases b <;> rfl
  | cons x xs ih =>
    cases b with
    | nil => simp [lexLtB] at h
    | cons y ys =>
      by_cases h1 : x < y
      · simp [lexLeB, h1]
      · by_cases h2 : x = y
        · simp only [lexLtB, if_neg h1, if_pos h2] at h
          simp [lexLeB, h1, h2, ih _ h]
        · simp [lexLtB, h1, h2] at h

theorem lexLtB_append (a b u v : List Char) (hlen : a.length = b.length)
    (h : lexLtB a b = true) : lexLtB (a ++ u) (b ++ v) = true := by
  induction a generalizing b with
  | nil =>
    cases b with
    | nil => simp [lexLtB] at h
    | cons y ys => simp at hlen
  | cons x xs ih =>
    cases b with
    | nil => simp at hlen
    | cons y ys =>
      by_cases h1 : x < y
      · simp [List.cons_append, lexLtB, h1]
      · by_cases h2 : x = y
        · simp only [lexLtB, if_neg h1, if_pos h2] at h
          simp only [List.cons_append, lexLtB, if_neg h1, if_pos h2]
          exact ih ys (by simpa using hlen) h
        · simp [lexLtB, h1, h2] at h

/-! ## Fixed-width decimal field lemmas -/

theorem digitCh_mono : ∀ x < 10, ∀ y < 10, x < y → digitCh x < digitCh y := by decide

theorem padDigits_length (w n : Nat) : (padDigits w n).length = w := by
  induction w generalizing n with
  | zero => rfl
  | succ w ih => simp [padDigits, ih]

theorem padDigits_zero (w : Nat) : padDigits w 0 = List.replicate w '0' := by
  induction w with
  | zero => rfl
  | succ w ih =>
    rw [padDigits, Nat.zero_div, ih, List.replicate_succ']
    rfl

theorem padDigits_lt (w a b : Nat) (hab : a < b) (hb : b < 10 ^ w) :
    lexLtB (padDigits w a) (padDigits w b) = true := by
  induction w generalizing a b with
  | zero => simp at hb; omega
  | succ w ih =>
    rw [padDigits, padDigits]
    rcases Nat.lt_or_ge (a / 10) (b / 10) with hd | hd
    · apply lexLtB_append _ _ _ _ (by simp [padDigits_length])
      apply ih _ _ hd
      rw [Nat.div_lt_iff_lt_mul (by norm_num)]
      calc b < 10 ^ (w + 1) := hb
        _ = 10 ^ w * 10 := by ring
    · have hdle : a / 10 ≤ b / 10 := Nat.div_le_div_right (le_of_lt hab)
      have hd2 : a / 10 = b / 10 := le_antisymm hdle hd
      rw [hd2, lexLtB_append_same]
      have hm : a % 10 < b % 10 := by omega
      have hdig := digitCh_mono (a % 10) (Nat.mod_lt _ (by norm_num)) (b % 10)
        (Nat.mod_lt _ (by norm_num)) hm
      simp [lexLtB, hdig]

theorem fieldStep (w a b : Nat) (u v : List Char) (hab : a ≤ b) (hb : b < 10 ^ w)
    (hrec : a = b → lexLeB u v = true) :
    lexLeB (padDigits w a ++ u) (padDigits w b ++ v) = true := by
  rcases Nat.lt_or_ge a b with h | h
  · exact lexLeB_of_lexLtB _ _
      (lexLtB_append _ _ _ _ (by simp [padDigits_length]) (padDigits_lt w a b h hb))
  · have he : a = b := le_antisymm hab h
    subst he
    rw [lexLeB_append_same]
    exact hrec rfl

theorem padDigits_le (w a b : Nat) (hab : a ≤ b) (hb : b < 10 ^ w) :
    lexLeB (padDigits w a) (padDigits w b) = true := by
  have h := fieldStep w a b [] [] hab hb (fun _ => rfl)
  simpa using h

theorem decDigits_length_le (w n : Nat) (hw : 1 ≤ w) (hn : n < 10 ^ w) :
    (decDigits n).length ≤ w := by
  induction w generalizing n with
  | zero => omega
  | succ w ih =>
    by_cases h10 : n < 10
    · rw [decDigits_lt n h10]
      simp
    · have hge := decDigits_ge n (by omega)
      rw [hge, List.length_append]
      have hw1 : 1 ≤ w := by
        by_contra hc
        have : w = 0 := by omega
        subst this
        simp at hn
        omega
      have hdiv : n / 10 < 10 ^ w := by
        rw [Nat.div_lt_iff_lt_mul (by norm_num)]
        calc n < 10 ^ (w + 1) := hn
          _ = 10 ^ w * 10 := by ring
      have := ih (n / 10) hw1 hdiv
      simp
      omega

theorem decDigits_eq_padDigits (w n : Nat) (h1 : 10 ^ w ≤ n) (h2 : n < 10 ^ (w + 1)) :
    decDigits n = padDigits (w + 1) n := by
  induction w generalizing n with
  | zero =>
    simp at h1 h2
    rw [decDigits_lt n h2, padDigits, padDigits]
    simp [Nat.mod_eq_of_lt h2, Nat.div_eq_of_lt h2]
  | succ w ih =>
    have h10 : 10 ≤ n := by
      calc (10 : Nat) = 10 ^ 1 := by ring
        _ ≤ 10 ^ (w + 1) := Nat.pow_le_pow_right (by norm_num) (by omega)
        _ ≤ n := h1
    rw [decDigits_ge n h10, padDigits]
    congr 1
    apply ih
    · rw [Nat.le_div_iff_mul_le (by norm_num)]
      calc 10 ^ w * 10 = 10 ^ (w + 1) := by ring
        _ ≤ n := h1
    · rw [Nat.div_lt_iff_lt_mul (by norm_num)]
      calc n < 10 ^ (w + 1 + 1) := h2
        _ = 10 ^ (w + 1) * 10 := by ring

theorem padDigits_succ_zero (w n : Nat) (h : n < 10 ^ w) :
    padDigits (w + 1) n = '0' :: padDigits w n := by
  induction w generalizing n with
  | zero =>
    simp at h
    subst h
    rfl
  | succ w ih =>
    have hdiv : n / 10 < 10 ^ w := by
      rw [Nat.div_lt_iff_lt_mul (by norm_num)]
      calc n < 10 ^ (w + 1) := h
        _ = 10 ^ w * 10 := by ring
    rw [padDigits, ih _ hdiv]
    rfl

theorem pyPad_eq_padDigits (w n : Nat) (hw : 1 ≤ w) (hn : n < 10 ^ w) :
    pyPad w n = padDigits w n := by
  induction w generalizing n with
  | zero => omega
  | succ w ih =>
    by_cases hc : w = 0
    · subst hc
      have h10 : n < 10 := by simpa using hn
      rw [pyPad, decDigits_lt n h10]
      simp [padDigits, Nat.mod_eq_of_lt h10, Nat.div_eq_of_lt h10]
    · have hw1 : 1 ≤ w := by omega
      by_cases hfit : n < 10 ^ w
      · have hlen := decDigits_length_le w n hw1 hfit
        rw [pyPad, show w + 1 - (decDigits n).length = (w - (decDigits n).length) + 1 by omega,
          List.replicate_succ, List.cons_append, padDigits_succ_zero w n hfit]
        have := ih n hw1 hfit
        rw [pyPad] at this
        rw [this]
      · have hge : 10 ^ w ≤ n := by omega
        have hdec := decDigits_eq_padDigits w n hge hn
        rw [pyPad, hdec, padDigits_length]
        simp

/-! ## Calendar monotonicity lemmas -/

theorem isLeap_iff (y : Nat) :
    isLeap y = true ↔ (y % 4 = 0 ∧ (y % 100 ≠ 0 ∨ y % 400 = 0)) := by
  simp [isLeap, Bool.and_eq_true, Bool.or_eq_true, beq_iff_eq, bne_iff_ne]

theorem days_before_year_succ (y : Nat) (hy : 1 ≤ y) :
    days_before_year (y + 1) = days_before_year y + (if isLeap y then 366 else 365) := by
  obtain ⟨m, rfl⟩ : ∃ m, y = m + 1 := ⟨y - 1, by omega⟩
  have e4 := Nat.succ_div m 4
  have e100 := Nat.succ_div m 100
  have e400 := Nat.succ_div m 400
  rw [days_before_year, days_before_year]
  simp only [Nat.add_sub_cancel]
  rw [e4, e100, e400]
  by_cases h4 : 4 ∣ (m + 1)
  · by_cases h100 : 100 ∣ (m + 1)
    · by_cases h400 : 400 ∣ (m + 1)
      · have hL : isLeap (m + 1) = true := by rw [isLeap_iff]; omega
        rw [if_pos h4, if_pos h100, if_pos h400, hL]
        simp only [if_true]
        omega
      · have hL : ¬ (isLeap (m + 1) = true) := by rw [isLeap_iff]; omega
        rw [if_pos h4, if_pos h100, if_neg h400, if_neg hL]
        omega
    · have h400 : ¬ (400 ∣ (m + 1)) := fun hc => h100 (dvd_trans (by norm_num) hc)
      have hL : isLeap (m + 1) = true := by rw [isLeap_iff]; omega
      rw [if_pos h4, if_neg h100, if_neg h400, hL]
      simp only [if_true]
      omega
  · have h100 : ¬ (100 ∣ (m + 1)) := fun hc => h4 (dvd_trans (by norm_num) hc)
    have h400 : ¬ (400 ∣ (m + 1)) := fun hc => h4 (dvd_trans (by norm_num) hc)
    have hL : ¬ (isLeap (m + 1) = true) := by rw [isLeap_iff]; omega
    rw [if_neg h4, if_neg h100, if_neg h400, if_neg hL]
    omega

theorem days_before_year_step (n : Nat) :
    days_before_year n ≤ days_before_year (n + 1) := by
  rcases Nat.eq_zero_or_pos n with h0 | h1
  · subst h0; decide
  · rw [days_before_year_succ n h1]
    split <;> omega

theorem days_before_year_mono (y y' : Nat) (h : y ≤ y') :
    days_before_year y ≤ days_before_year y' := by
  induction h with
  | refl => exact le_refl _
  | step h ih => exact le_trans ih (days_before_year_step _)

theorem dbm_dim_bound (y m : Nat) (hm1 : 1 ≤ m) (hm2 : m ≤ 12) :
    days_before_month y m + days_in_month y m ≤ (if isLeap y then 366 else 365) := by
  cases hL : isLeap y <;> interval_cases m <;>
    simp [days_before_month, days_in_month, daysBeforeMonthTable, daysInMonthTable, hL]

theorem dbm_dim_mono (y m1 m2 : Nat) (h1 : 1 ≤ m1) (h2 : m1 < m2) (h3 : m2 ≤ 12) :
    days_before_month y m1 + days_in_month y m1 ≤ days_before_month y m2 := by
  cases hL : isLeap y <;> interval_cases m2 <;> interval_cases m1 <;>
    simp [days_before_month, days_in_month, daysBeforeMonthTable, daysInMonthTable, hL]

theorem days_in_month_le_31 (y m : Nat) (hm : m ≤ 12) : days_in_month y m ≤ 31 := by
  cases hL : isLeap y <;> interval_cases m <;>
    simp [days_in_month, daysInMonthTable, hL]

theorem ymd2ord_le_yearEnd (y m d : Nat) (hm1 : 1 ≤ m) (hm2 : m ≤ 12)
    (hd : d ≤ days_in_month y m) :
    ymd2ord y m d ≤ days_before_year y + (if isLeap y then 366 else 365) := by
  have hb := dbm_dim_bound y m hm1 hm2
  rw [ymd2ord]
  omega

theorem ymd2ord_lower (y m d : Nat) (hd : 1 ≤ d) :
    days_before_year y + 1 ≤ ymd2ord y m d := by
  rw [ymd2ord]
  omega

theorem ymd2ord_lt_of_dateLt (y1 m1 d1 y2 m2 d2 : Nat)
    (hm11 : 1 ≤ m1) (hm12 : m1 ≤ 12) (hd11 : 1 ≤ d1) (hd12 : d1 ≤ days_in_month y1 m1)
    (hm21 : 1 ≤ m2) (hm22 : m2 ≤ 12) (hd21 : 1 ≤ d2)
    (hy1 : 1 ≤ y1)
    (hlt : y1 < y2 ∨ (y1 = y2 ∧ (m1 < m2 ∨ (m1 = m2 ∧ d1 < d2)))) :
    ymd2ord y1 m1 d1 < ymd2ord y2 m2 d2 := by
  rcases hlt with hy | ⟨rfl, hmd⟩
  · have h1 : ymd2ord y1 m1 d1 ≤ days_before_year (y1 + 1) := by
      rw [days_before_year_succ y1 hy1]
      exact ymd2ord_le_yearEnd y1 m1 d1 hm11 hm12 hd12
    have h2 : days_before_year (y1 + 1) ≤ days_before_year y2 :=
      days_before_year_mono _ _ (by omega)
    have h3 : days_before_year y2 + 1 ≤ ymd2ord y2 m2 d2 := ymd2ord_lower y2 m2 d2 hd21
    omega
  · rcases hmd with hm | ⟨rfl, hd⟩
    · have hmono := dbm_dim_mono y1 m1 m2 hm11 hm hm22
      rw [ymd2ord, ymd2ord]
      omega
    · rw [ymd2ord, ymd2ord]
      omega

theorem ymd2ord_le_of_dateLe (y1 m1 d1 y2 m2 d2 : Nat)
    (hm11 : 1 ≤ m1) (hm12 : m1 ≤ 12) (hd11 : 1 ≤ d1) (hd12 : d1 ≤ days_in_month y1 m1)
    (hm21 : 1 ≤ m2) (hm22 : m2 ≤ 12) (hd21 : 1 ≤ d2)
    (hy1 : 1 ≤ y1)
    (hle : y1 < y2 ∨ (y1 = y2 ∧ (m1 < m2 ∨ (m1 = m2 ∧ d1 ≤ d2)))) :
    ymd2ord y1 m1 d1 ≤ ymd2ord y2 m2 d2 := by
  rcases hle with hy | ⟨rfl, hmd⟩
  · exact le_of_lt (ymd2ord_lt_of_dateLt y1 m1 d1 y2 m2 d2 hm11 hm12 hd11 hd12
      hm21 hm22 hd21 hy1 (Or.inl hy))
  · rcases hmd with hm | ⟨rfl, hd⟩
    · exact le_of_lt (ymd2ord_lt_of_dateLt y1 m1 d1 y1 m2 d2 hm11 hm12 hd11 hd12
      hm21 hm22 hd21 hy1 (Or.inr ⟨rfl, Or.inl hm⟩))
    · rcases Nat.lt_or_ge d1 d2 with hdd | hdd
      · exact le_of_lt (ymd2ord_lt_of_dateLt y1 m1 d1 y1 m1 d2 hm11 hm12 hd11 hd12
          hm21 hm22 hd21 hy1 (Or.inr ⟨rfl, Or.inr ⟨rfl, hdd⟩⟩))
      · have : d1 = d2 := by omega
        subst this
        exact le_refl _

/-! ## ISO calendar lemmas -/

theorem jan1_eq (y : Nat) : ymd2ord y 1 1 = days_before_year y + 1 := by
  simp [ymd2ord, days_before_month, daysBeforeMonthTable]

theorem isoweek1monday_near (y : Nat) :
    (ymd2ord y 1 1 : Int) - 3 ≤ isoweek1monday y ∧
    isoweek1monday y ≤ (ymd2ord y 1 1 : Int) + 3 ∧
    isoweek1monday y % 7 = 1 := by
  simp only [isoweek1monday]
  by_cases hb : 3 < ((ymd2ord y 1 1 : Int) + 6) % 7
  · rw [if_pos hb]
    omega
  · rw [if_neg hb]
    omega

theorem isoweek1monday_gap (y : Nat) (hy : 1 ≤ y) :
    isoweek1monday (y + 1) - isoweek1monday y = 364 ∨
    isoweek1monday (y + 1) - isoweek1monday y = 371 := by
  have h1 := isoweek1monday_near y
  have h2 := isoweek1monday_near (y + 1)
  have hj : ymd2ord (y + 1) 1 1 = ymd2ord y 1 1 + (if isLeap y then 366 else 365) := by
    rw [jan1_eq, jan1_eq, days_before_year_succ y hy]
    omega
  have hite : (if isLeap y then (366 : Nat) else 365) = 365 ∨
      (if isLeap y then (366 : Nat) else 365) = 366 := by
    by_cases hL : isLeap y = true
    · rw [if_pos hL]; omega
    · rw [if_neg hL]; omega
  omega

theorem isoweek1monday_mono (a b : Nat) (ha : 1 ≤ a) (hab : a ≤ b) :
    isoweek1monday a ≤ isoweek1monday b ∧
    (a < b → isoweek1monday a + 364 ≤ isoweek1monday b) := by
  induction hab with
  | refl => exact ⟨le_refl _, by omega⟩
  | @step b' h' ih =>
    simp only [Nat.succ_eq_add_one]
    have hb1 : 1 ≤ b' := le_trans ha h'
    have hg := isoweek1monday_gap b' hb1
    obtain ⟨ih1, ih2⟩ := ih
    constructor
    · omega
    · intro hab2
      rcases Nat.lt_or_ge a b' with hlt | hge
      · have := ih2 hlt
        omega
      · have : a = b' := by omega
        subst this
        omega

theorem iso_bracket (y m d : Nat) (hy1 : 1 ≤ y) (hm1 : 1 ≤ m) (hm2 : m ≤ 12)
    (hd1 : 1 ≤ d) (hd2 : d ≤ days_in_month y m) :
    isoweek1monday (isocalendarYW y m d).1 ≤ (ymd2ord y m d : Int) ∧
    (ymd2ord y m d : Int) < isoweek1monday ((isocalendarYW y m d).1 + 1) ∧
    ((isocalendarYW y m d).2 : Int) =
      ((ymd2ord y m d : Int) - isoweek1monday (isocalendarYW y m d).1) / 7 + 1 ∧
    1 ≤ (isocalendarYW y m d).2 ∧ (isocalendarYW y m d).2 ≤ 53 ∧
    1 ≤ (isocalendarYW y m d).1 := by
  have hlow : days_before_year y + 1 ≤ ymd2ord y m d := ymd2ord_lower y m d hd1
  have hhigh : ymd2ord y m d ≤ days_before_year y + (if isLeap y then 366 else 365) :=
    ymd2ord_le_yearEnd y m d hm1 hm2 hd2
  have hj1 : ymd2ord y 1 1 = days_before_year y + 1 := jan1_eq y
  have hj2 : ymd2ord (y + 1) 1 1 = days_before_year (y + 1) + 1 := jan1_eq (y + 1)
  have hsucc : days_before_year (y + 1) =
      days_before_year y + (if isLeap y then 366 else 365) := days_before_year_succ y hy1
  have hn1 := isoweek1monday_near y
  have hn2 := isoweek1monday_near (y + 1)
  simp only [isocalendarYW]
  split
  case isTrue hweek =>
    rcases Nat.lt_or_ge y 2 with h2 | h2
    · exfalso
      have hy1e : y = 1 := by omega
      subst hy1e
      have hw1 : isoweek1monday 1 = 1 := by decide
      have hdb : days_before_year 1 = 0 := rfl
      omega
    · have hnm := isoweek1monday_near (y - 1)
      have hgap := isoweek1monday_gap (y - 1) (by omega)
      have hy1e : y - 1 + 1 = y := by omega
      rw [hy1e] at hgap
      dsimp only
      rw [hy1e]
      have htn : (0 : Int) ≤ ((ymd2ord y m d : Int) - isoweek1monday (y - 1)) / 7 + 1 := by
        omega
      refine ⟨by omega, by omega, ?_, ?_, ?_, by omega⟩
      · rw [Int.toNat_of_nonneg htn]
      · omega
      · omega
  case isFalse hweek =>
    split
    case isTrue hcond =>
      obtain ⟨hc1, hc2⟩ := hcond
      have hgap2 := isoweek1monday_gap (y + 1) (by omega)
      dsimp only
      refine ⟨by omega, by omega, ?_, by omega, by omega, by omega⟩
      have : ((ymd2ord y m d : Int) - isoweek1monday (y + 1)) / 7 = 0 := by omega
      rw [this]
      decide
    case isFalse hcond =>
      have hgap := isoweek1monday_gap y hy1
      dsimp only
      have hge : isoweek1monday y ≤ (ymd2ord y m d : Int) := by omega
      have htn : (0 : Int) ≤ ((ymd2ord y m d : Int) - isoweek1monday y) / 7 + 1 := by
        omega
      refine ⟨by omega, by omega, ?_, ?_, ?_, by omega⟩
      · rw [Int.toNat_of_nonneg htn]
      · omega
      · omega

theorem iso_mono (y1 m1 d1 y2 m2 d2 : Nat)
    (hy1 : 1 ≤ y1) (hm11 : 1 ≤ m1) (hm12 : m1 ≤ 12) (hd11 : 1 ≤ d1)
    (hd12 : d1 ≤ days_in_month y1 m1)
    (hy2 : 1 ≤ y2) (hm21 : 1 ≤ m2) (hm22 : m2 ≤ 12) (hd21 : 1 ≤ d2)
    (hd22 : d2 ≤ days_in_month y2 m2)
    (hord : ymd2ord y1 m1 d1 ≤ ymd2ord y2 m2 d2) :
    (isocalendarYW y1 m1 d1).1 < (isocalendarYW y2 m2 d2).1 ∨
    ((isocalendarYW y1 m1 d1).1 = (isocalendarYW y2 m2 d2).1 ∧
      (isocalendarYW y1 m1 d1).2 ≤ (isocalendarYW y2 m2 d2).2) := by
  obtain ⟨b1a, b1b, b1f, b1w1, b1w2, b1y⟩ := iso_bracket y1 m1 d1 hy1 hm11 hm12 hd11 hd12
  obtain ⟨b2a, b2b, b2f, b2w1, b2w2, b2y⟩ := iso_bracket y2 m2 d2 hy2 hm21 hm22 hd21 hd22
  have hcast : (ymd2ord y1 m1 d1 : Int) ≤ (ymd2ord y2 m2 d2 : Int) := by exact_mod_cast hord
  rcases Nat.lt_trichotomy (isocalendarYW y1 m1 d1).1 (isocalendarYW y2 m2 d2).1 with h | h | h
  · exact Or.inl h
  · refine Or.inr ⟨h, ?_⟩
    rw [h] at b1f
    omega
  · exfalso
    have hmono := (isoweek1monday_mono ((isocalendarYW y2 m2 d2).1 + 1)
      (isocalendarYW y1 m1 d1).1 (by omega) (by omega)).1
    omega

/-! ## Datetime comparison lemmas -/

theorem fieldsLeB_cases (a b : PyDateTime) (h : fieldsLeB a b = true) :
    a.year < b.year ∨ (a.year = b.year ∧ (a.month < b.month ∨ (a.month = b.month ∧
      (a.day < b.day ∨ (a.day = b.day ∧ (a.hour < b.hour ∨ (a.hour = b.hour ∧
      (a.minute < b.minute ∨ (a.minute = b.minute ∧ (a.second < b.second ∨
      a.second = b.second)))))))))) := by
  rw [fieldsLeB] at h
  by_cases c1 : a.year < b.year
  · exact Or.inl c1
  rw [if_neg c1] at h
  by_cases c2 : b.year < a.year
  · rw [if_pos c2] at h; exact absurd h Bool.false_ne_true
  rw [if_neg c2] at h
  by_cases c3 : a.month < b.month
  · exact Or.inr ⟨by omega, Or.inl c3⟩
  rw [if_neg c3] at h
  by_cases c4 : b.month < a.month
  · rw [if_pos c4] at h; exact absurd h Bool.false_ne_true
  rw [if_neg c4] at h
  by_cases c5 : a.day < b.day
  · exact Or.inr ⟨by omega, Or.inr ⟨by omega, Or.inl c5⟩⟩
  rw [if_neg c5] at h
  by_cases c6 : b.day < a.day
  · rw [if_pos c6] at h; exact absurd h Bool.false_ne_true
  rw [if_neg c6] at h
  by_cases c7 : a.hour < b.hour
  · exact Or.inr ⟨by omega, Or.inr ⟨by omega, Or.inr ⟨by omega, Or.inl c7⟩⟩⟩
  rw [if_neg c7] at h
  by_cases c8 : b.hour < a.hour
  · rw [if_pos c8] at h; exact absurd h Bool.false_ne_true
  rw [if_neg c8] at h
  by_cases c9 : a.minute < b.minute
  · exact Or.inr ⟨by omega, Or.inr ⟨by omega, Or.inr ⟨by omega,
      Or.inr ⟨by omega, Or.inl c9⟩⟩⟩⟩
  rw [if_neg c9] at h
  by_cases c10 : b.minute < a.minute
  · rw [if_pos c10] at h; exact absurd h Bool.false_ne_true
  rw [if_neg c10] at h
  by_cases c11 : a.second < b.second
  · exact Or.inr ⟨by omega, Or.inr ⟨by omega, Or.inr ⟨by omega,
      Or.inr ⟨by omega, Or.inr ⟨by omega, Or.inl c11⟩⟩⟩⟩⟩
  rw [if_neg c11] at h
  by_cases c12 : b.second < a.second
  · rw [if_pos c12] at h; exact absurd h Bool.false_ne_true
  omega

/-! ## Slug monotonicity -/

theorem decDigits_eq_pad4 (n : Nat) (h1 : 1000 ≤ n) (h2 : n ≤ 9999) :
    decDigits n = padDigits 4 n := by
  have h := decDigits_eq_padDigits 3 n (by norm_num; omega) (by norm_num; omega)
  simpa using h

theorem make_slug_mono (a b : PyDateTime) (va : ValidDT a) (vb : ValidDT b)
    (h : fieldsLeB a b = true) : strLeB (make_slug a) (make_slug b) = true := by
  obtain ⟨a1, a2, a3, a4, a5, a6, a7, a8, a9, a10⟩ := va
  obtain ⟨b1, b2, b3, b4, b5, b6, b7, b8, b9, b10⟩ := vb
  have hc := fieldsLeB_cases a b h
  have hdimA := days_in_month_le_31 a.year a.month a4
  have hdimB := days_in_month_le_31 b.year b.month b4
  rw [strLeB, make_slug, make_slug]
  dsimp only
  rw [pyPad_eq_padDigits 4 a.year (by norm_num) (by norm_num; omega),
      pyPad_eq_padDigits 4 b.year (by norm_num) (by norm_num; omega),
      pyPad_eq_padDigits 2 a.month (by norm_num) (by norm_num; omega),
      pyPad_eq_padDigits 2 b.month (by norm_num) (by norm_num; omega),
      pyPad_eq_padDigits 2 a.day (by norm_num) (by norm_num; omega),
      pyPad_eq_padDigits 2 b.day (by norm_num) (by norm_num; omega),
      pyPad_eq_padDigits 2 a.hour (by norm_num) (by norm_num; omega),
      pyPad_eq_padDigits 2 b.hour (by norm_num) (by norm_num; omega),
      pyPad_eq_padDigits 2 a.minute (by norm_num) (by norm_num; omega),
      pyPad_eq_padDigits 2 b.minute (by norm_num) (by norm_num; omega),
      pyPad_eq_padDigits 2 a.second (by norm_num) (by norm_num; omega),
      pyPad_eq_padDigits 2 b.second (by norm_num) (by norm_num; omega)]
  simp only [List.append_assoc, List.cons_append, List.nil_append]
  refine fieldStep 4 a.year b.year _ _ (by omega) (by norm_num; omega) ?_
  intro hy
  rw [lexLeB_cons_same]
  refine fieldStep 2 a.month b.month _ _ (by omega) (by norm_num; omega) ?_
  intro hmo
  rw [lexLeB_cons_same]
  refine fieldStep 2 a.day b.day _ _ (by omega) (by norm_num; omega) ?_
  intro hd
  rw [lexLeB_cons_same]
  refine fieldStep 2 a.hour b.hour _ _ (by omega) (by norm_num; omega) ?_
  intro hh
  rw [lexLeB_cons_same]
  refine fieldStep 2 a.minute b.minute _ _ (by omega) (by norm_num; omega) ?_
  intro hmi
  rw [lexLeB_cons_same]
  refine fieldStep 2 a.second b.second _ _ (by omega) (by norm_num; omega) ?_
  intro hs
  rfl

theorem cws_mono (a b : PyDateTime) (va : ValidDT a) (vb : ValidDT b)
    (h : fieldsLeB a b = true)
    (hy1 : 1000 ≤ (isocalendarYW a.year a.month a.day).1)
    (hy2 : (isocalendarYW b.year b.month b.day).1 ≤ 9999) :
    strLeB (current_week_slug a) (current_week_slug b) = true := by
  obtain ⟨a1, a2, a3, a4, a5, a6, a7, a8, a9, a10⟩ := va
  obtain ⟨b1, b2, b3, b4, b5, b6, b7, b8, b9, b10⟩ := vb
  have hc := fieldsLeB_cases a b h
  have hord : ymd2ord a.year a.month a.day ≤ ymd2ord b.year b.month b.day := by
    apply ymd2ord_le_of_dateLe a.year a.month a.day b.year b.month b.day
      a3 a4 a5 a6 b3 b4 b5 a1
    omega
  have hiso := iso_mono a.year a.month a.day b.year b.month b.day
    a1 a3 a4 a5 a6 b1 b3 b4 b5 b6 hord
  obtain ⟨c1a, c1b, c1f, c1w1, c1w2, c1y⟩ :=
    iso_bracket a.year a.month a.day a1 a3 a4 a5 a6
  obtain ⟨c2a, c2b, c2f, c2w1, c2w2, c2y⟩ :=
    iso_bracket b.year b.month b.day b1 b3 b4 b5 b6
  have hYle : (isocalendarYW a.year a.month a.day).1 ≤
      (isocalendarYW b.year b.month b.day).1 := by
    rcases hiso with hx | ⟨hx, _⟩ <;> omega
  rw [strLeB, current_week_slug, current_week_slug]
  dsimp only
  rw [decDigits_eq_pad4 _ hy1 (le_trans hYle hy2),
      decDigits_eq_pad4 _ (le_trans hy1 hYle) hy2,
      pyPad_eq_padDigits 2 (isocalendarYW a.year a.month a.day).2 (by norm_num)
        (by norm_num; omega),
      pyPad_eq_padDigits 2 (isocalendarYW b.year b.month b.day).2 (by norm_num)
        (by norm_num; omega)]
  simp only [List.append_assoc, List.cons_append, List.nil_append]
  refine fieldStep 4 _ _ _ _ hYle (by norm_num; omega) ?_
  intro hY
  rw [lexLeB_cons_same, lexLeB_cons_same]
  have hwle : (isocalendarYW a.year a.month a.day).2 ≤
      (isocalendarYW b.year b.month b.day).2 := by
    rcases hiso with hx | ⟨hx, hw⟩
    · omega
    · exact hw
  exact padDigits_le 2 _ _ hwle (by norm_num; omega)

/-! ## C5 -/

/-- C5 counterexample: two valid aware datetimes with different UTC offsets
where the earlier instant (dtMixA, Monday 2024-12-30 00:30 at offset zero)
has wall-clock fields ahead of the later instant (dtMixB, one half hour
later, whose wall clock at offset -02:00 still reads Sunday 2024-12-29
23:00); both slugging policies order the two slugs against the instants. -/
theorem slug_monotonicity_cex :
    ValidDT dtMixA ∧ ValidDT dtMixB ∧ dtLeB dtMixA dtMixB = true ∧
    strLeB (current_week_slug dtMixA) (current_week_slug dtMixB) = false ∧
    strLeB (make_slug dtMixA) (make_slug dtMixB) = false := by decide

/-- C5 amended: for aware datetimes carrying the same fixed UTC offset (as
both slugging call sites produce, converting through a single configured
timezone), Python comparison coincides with the field order and both slug
policies are monotone under code-point lexicographic string order; the
weekly policy renders the ISO year unpadded, so its slugs sort correctly
while ISO years have four digits (1000..9999). -/
theorem slug_monotonicity_equal_offsets (a b : PyDateTime) (va : ValidDT a)
    (vb : ValidDT b) (hoff : a.utcOffset = b.utcOffset) (hle : dtLeB a b = true)
    (hy1 : 1000 ≤ (isocalendarYW a.year a.month a.day).1)
    (hy2 : (isocalendarYW b.year b.month b.day).1 ≤ 9999) :
    strLeB (make_slug a) (make_slug b) = true ∧
    strLeB (current_week_slug a) (current_week_slug b) = true := by
  have hf : fieldsLeB a b = true := by rwa [dtLeB, if_pos hoff] at hle
  exact ⟨make_slug_mono a b va vb hf, cws_mono a b va vb hf hy1 hy2⟩

/-- Witness for C5 at two concrete Paris-offset datetimes in ISO weeks
2025-W02 and 2025-W10. -/
theorem slug_monotonicity_equal_offsets_witness :
    (ValidDT dtEqA ∧ ValidDT dtEqB ∧ dtEqA.utcOffset = dtEqB.utcOffset ∧
      dtLeB dtEqA dtEqB = true) ∧
    strLeB (make_slug dtEqA) (make_slug dtEqB) = true ∧
    strLeB (current_week_slug dtEqA) (current_week_slug dtEqB) = true := by
  refine ⟨⟨by decide, by decide, by decide, by decide⟩, ?_⟩
  exact slug_monotonicity_equal_offsets dtEqA dtEqB (by decide) (by decide) (by decide)
    (by decide) (by decide) (by decide)

end Wire
